import Mathlib

/-!
Verification of the OptiBlend blend-optimization core.

The development shallowly embeds the two linear-programming formulations of
the repository:
  * the free-allocation formulation of optimization_engine.py
    (calculate_optimal_mix), and
  * the fixed-ratio protocol formulation of
    OptiBlend-master/advanced_optimizer.py (WasteMixOptimizer.solve_optimal_mix),
together with the data model and validation of
OptiBlend-master/waste_management.py.

Real numbers of the Python source are modelled as rationals; the external LP
solver (scipy.linprog respectively PuLP/CBC) is modelled as an oracle
parameter returning a status and a solution vector. Python round (banker
rounding to a number of decimal digits) is modelled exactly.
-/

namespace OptiBlend

/-- Dot product of two coefficient lists (truncating at the shorter one,
as numpy/PuLP sums over the paired entries). -/
def dot (a b : List ℚ) : ℚ := (List.zipWith (fun p q => p * q) a b).sum

/-- Round to the nearest integer, ties to even: the rounding mode of the
Python builtin round. -/
def roundHalfEven (q : ℚ) : ℤ :=
  if q - ⌊q⌋ < 1/2 then ⌊q⌋
  else if 1/2 < q - ⌊q⌋ then ⌊q⌋ + 1
  else if Even ⌊q⌋ then ⌊q⌋ else ⌊q⌋ + 1

/-- Python round(q, n): banker rounding at n decimal digits. -/
def pyRound (n : ℕ) (q : ℚ) : ℚ :=
  (roundHalfEven (q * 10 ^ n) : ℚ) / 10 ^ n

/-! ## Data model (waste_management.py) -/

/-- WasteStream dataclass of waste_management.py. -/
structure WasteStream where
  name : String
  pci_value : ℚ
  humidity : ℚ
  chloride_content : ℚ
  sulfur_content : ℚ
  density : ℚ
  cost : ℚ
  available_mass : ℚ
deriving DecidableEq

/-- WasteStream.__post_init__: validation run at construction time.
Returns the stream unchanged when valid, otherwise the ValueError message. -/
def WasteStream.postInit (w : WasteStream) : Except String WasteStream :=
  if w.pci_value < 0 then Except.error "PCI value cannot be negative"
  else if w.available_mass < 0 then Except.error "Available mass cannot be negative"
  else Except.ok w

/-- Constructing every stream of a request, in order: the only validation the
code performs before LP construction. -/
def validateStreams (ws : List WasteStream) : Except String (List WasteStream) :=
  ws.mapM WasteStream.postInit

/-- KilnOperationalParameters dataclass of waste_management.py. -/
structure KilnOperationalParameters where
  target_pci : ℚ
  max_sulfur : ℚ
  max_chloride : ℚ
  target_tsr : ℚ
  feed_rate_capacity : ℚ
deriving DecidableEq

/-! ## Free-allocation formulation (optimization_engine.py) -/

/-- The canonical LP description handed to scipy.linprog: objective vector,
inequality rows with right-hand sides, and per-variable bounds. -/
structure LinearProgram where
  c : List ℚ
  A_ub : List (List ℚ)
  b_ub : List ℚ
  bounds : List (ℚ × ℚ)
deriving DecidableEq

/-- The model-building half of calculate_optimal_mix: objective
coefficients cost_i - 100000, the capacity row, the linearized sulfur and
chloride rows, the two PCI band rows, and bounds [0, available_mass]. -/
def buildFreeLP (ws : List WasteStream) (params : KilnOperationalParameters) :
    LinearProgram where
  c := ws.map (fun w => w.cost - 100000)
  A_ub :=
    [ws.map (fun _ => (1 : ℚ)),
     ws.map (fun w => w.sulfur_content - params.max_sulfur),
     ws.map (fun w => w.chloride_content - params.max_chloride),
     ws.map (fun w => -(w.pci_value - 95/100 * params.target_pci)),
     ws.map (fun w => w.pci_value - 105/100 * params.target_pci)]
  b_ub := [params.feed_rate_capacity, 0, 0, 0, 0]
  bounds := ws.map (fun w => ((0 : ℚ), w.available_mass))

/-- Termination statuses of scipy.optimize.linprog. -/
inductive ScipyStatus where
  | optimal
  | iterationLimit
  | infeasible
  | unbounded
  | numericalError
deriving DecidableEq

/-- The scipy result record: status, solution vector, objective value and
diagnostic message. -/
structure ScipyResult where
  status : ScipyStatus
  x : List ℚ
  objValue : ℚ
  message : String
deriving DecidableEq

/-- res.success of scipy: true exactly for status 0 (optimal). -/
def ScipyResult.success (r : ScipyResult) : Bool :=
  match r.status with
  | ScipyStatus.optimal => true
  | _ => false

/-- The entries kept by the result loop: pairs (stream, value) with
value > 1e-3 (tiny values filtered). -/
def filteredEntries (ws : List WasteStream) (x : List ℚ) :
    List (WasteStream × ℚ) :=
  (ws.zip x).filter (fun p => 1/1000 < p.2)

/-- total_mass accumulated over the filtered entries. -/
def freeTotalMass (ws : List WasteStream) (x : List ℚ) : ℚ :=
  ((filteredEntries ws x).map (fun p => p.2)).sum

/-- total_heat accumulated over the filtered entries. -/
def freeTotalHeat (ws : List WasteStream) (x : List ℚ) : ℚ :=
  ((filteredEntries ws x).map (fun p => p.2 * p.1.pci_value)).sum

/-- total_sulfur_mass accumulated over the filtered entries. -/
def freeTotalSulfur (ws : List WasteStream) (x : List ℚ) : ℚ :=
  ((filteredEntries ws x).map (fun p => p.2 * p.1.sulfur_content)).sum

/-- total_chloride_mass accumulated over the filtered entries. -/
def freeTotalChloride (ws : List WasteStream) (x : List ℚ) : ℚ :=
  ((filteredEntries ws x).map (fun p => p.2 * p.1.chloride_content)).sum

/-- total_cost accumulated over the filtered entries. -/
def freeTotalCost (ws : List WasteStream) (x : List ℚ) : ℚ :=
  ((filteredEntries ws x).map (fun p => p.2 * p.1.cost)).sum

/-- result_mix: name mapped to round(val, 2) for each kept entry (the dict
is modelled as an association list in insertion order). -/
def freeMix (ws : List WasteStream) (x : List ℚ) : List (String × ℚ) :=
  (filteredEntries ws x).map (fun p => (p.1.name, pyRound 2 p.2))

/-- The two shapes of dictionary returned by calculate_optimal_mix. -/
inductive FreeResult where
  | achieved (mix : List (String × ℚ)) (total_feed_rate avg_pci avg_sulfur
      avg_chloride total_cost : ℚ)
  | failed (reason : String)
deriving DecidableEq

/-- The status field of the returned dictionary. -/
def FreeResult.status : FreeResult → String
  | FreeResult.achieved _ _ _ _ _ _ => "Target Achieved"
  | FreeResult.failed _ => "Optimization Failed"

/-- The guarded average of the result loop: total over mass when the mass
is positive, otherwise 0. -/
def freeAvg (total mass : ℚ) : ℚ :=
  if 0 < mass then total / mass else 0

/-- calculate_optimal_mix of optimization_engine.py, with the external
solver passed as an oracle. -/
def calculate_optimal_mix (ws : List WasteStream)
    (params : KilnOperationalParameters)
    (solver : LinearProgram → ScipyResult) : FreeResult :=
  let res := solver (buildFreeLP ws params)
  if res.success then
    let x := res.x
    let total_mass := freeTotalMass ws x
    FreeResult.achieved (freeMix ws x)
      (pyRound 2 total_mass)
      (pyRound 2 (freeAvg (freeTotalHeat ws x) total_mass))
      (pyRound 4 (freeAvg (freeTotalSulfur ws x) total_mass))
      (pyRound 4 (freeAvg (freeTotalChloride ws x) total_mass))
      (pyRound 2 (freeTotalCost ws x))
  else FreeResult.failed res.message

/-- The solution vector the free formulation receives from its solver. -/
def solvedVec (ws : List WasteStream) (params : KilnOperationalParameters)
    (solver : LinearProgram → ScipyResult) : List ℚ :=
  (solver (buildFreeLP ws params)).x

/-! ## Fixed-ratio protocol formulation (advanced_optimizer.py) -/

/-- One waste record of the protocol formulation (the input dicts of
solve_optimal_mix; an absent stock key defaults to 0). -/
structure WasteInput where
  name : String
  pci : ℚ
  chlorine : ℚ
  sulfur : ℚ
  humidity : ℚ
  stock : ℚ
deriving DecidableEq

/-- The optional quality limits of the constraints dict. -/
structure PConstraints where
  max_chlorine : Option ℚ
  max_humidity : Option ℚ
  max_sulfur : Option ℚ
  min_pci : Option ℚ
deriving DecidableEq

/-- PETCOKE_PROPS pci. -/
def petcokePci : ℚ := 8200

/-- PETCOKE_PROPS chlorine. -/
def petcokeChlorine : ℚ := 5/10000

/-- PETCOKE_PROPS sulfur. -/
def petcokeSulfur : ℚ := 4/100

/-- PETCOKE_PROPS humidity. -/
def petcokeHumidity : ℚ := 1/100

/-- Sense of a PuLP linear constraint. -/
inductive Sense where
  | le
  | ge
  | eq
deriving DecidableEq

/-- An affine PuLP constraint: constant + coefficients against a
right-hand side. -/
structure LinCon where
  const : ℚ
  coeffs : List ℚ
  sense : Sense
  rhs : ℚ
deriving DecidableEq

/-- Satisfaction of one constraint by an assignment vector. -/
def LinCon.sat (c : LinCon) (x : List ℚ) : Prop :=
  match c.sense with
  | Sense.le => c.const + dot c.coeffs x ≤ c.rhs
  | Sense.ge => c.rhs ≤ c.const + dot c.coeffs x
  | Sense.eq => c.const + dot c.coeffs x = c.rhs

/-- The constraints added by solve_optimal_mix, in program order: the
equality mass balance, then each quality constraint present in the
constraints dict. -/
def buildProtocolCons (waste : List WasteInput) (cons : PConstraints) :
    List LinCon :=
  [⟨0, waste.map (fun _ => (1 : ℚ)), Sense.eq, 1/2⟩] ++
  (match cons.max_chlorine with
   | some L => [⟨1/2 * petcokeChlorine, waste.map (fun w => w.chlorine), Sense.le, L⟩]
   | none => []) ++
  (match cons.max_humidity with
   | some L => [⟨1/2 * petcokeHumidity, waste.map (fun w => w.humidity), Sense.le, L⟩]
   | none => []) ++
  (match cons.max_sulfur with
   | some L => [⟨1/2 * petcokeSulfur, waste.map (fun w => w.sulfur), Sense.le, L⟩]
   | none => []) ++
  (match cons.min_pci with
   | some L => [⟨1/2 * petcokePci, waste.map (fun w => w.pci), Sense.ge, L⟩]
   | none => [])

/-- The final upper bound of a decision variable: created with upBound 0.5,
then forced to 0 by the availability loop when stock ≤ 0. -/
def protocolUpBound (w : WasteInput) : ℚ :=
  if w.stock ≤ 0 then 0 else 1/2

/-- Bounds of the protocol decision variables. -/
def protocolBounds (waste : List WasteInput) : List (ℚ × ℚ) :=
  waste.map (fun w => ((0 : ℚ), protocolUpBound w))

/-- An assignment respects a bounds list (elementwise, same length). -/
def respectsBounds (bounds : List (ℚ × ℚ)) (x : List ℚ) : Prop :=
  List.Forall₂ (fun b v => b.1 ≤ v ∧ v ≤ b.2) bounds x

/-- Feasibility of an assignment for the protocol LP: within bounds and
satisfying every built constraint. -/
def protocolFeasible (waste : List WasteInput) (cons : PConstraints)
    (x : List ℚ) : Prop :=
  respectsBounds (protocolBounds waste) x ∧
  ∀ c ∈ buildProtocolCons waste cons, c.sat x

/-- The protocol objective: half the petcoke PCI plus the waste
contribution (the expression PuLP maximizes, and the expression
value(prob.objective) re-evaluates on the solved variables). -/
def protocolObjective (waste : List WasteInput) (x : List ℚ) : ℚ :=
  1/2 * petcokePci + dot (waste.map (fun w => w.pci)) x

/-- PuLP solution statuses. -/
inductive PulpStatus where
  | optimal
  | notSolved
  | infeasible
  | unbounded
  | undefined
deriving DecidableEq

/-- The LpStatus table of PuLP, mapping each status to its name. -/
def LpStatus : PulpStatus → String
  | PulpStatus.optimal => "Optimal"
  | PulpStatus.notSolved => "Not Solved"
  | PulpStatus.infeasible => "Infeasible"
  | PulpStatus.unbounded => "Unbounded"
  | PulpStatus.undefined => "Undefined"

/-- What the CBC solver hands back: a status and values for the decision
variables (in the order of the waste list). -/
structure PulpResult where
  status : PulpStatus
  x : List ℚ
deriving DecidableEq

/-- The OptimizationResult dataclass of advanced_optimizer.py (details
flattened into the three recomputed metrics; the constant protocol tag
is omitted). -/
structure OptimizationResult where
  status : String
  mix : List (String × ℚ)
  objective_value : ℚ
  details_chlorine : ℚ
  details_humidity : ℚ
  details_sulfur : ℚ
deriving DecidableEq

/-- Recomputed total chlorine of the mix: petcoke half plus every solved
variable times its chlorine content. -/
def protoChlorine (waste : List WasteInput) (x : List ℚ) : ℚ :=
  1/2 * petcokeChlorine + dot (waste.map (fun w => w.chlorine)) x

/-- Recomputed total humidity of the mix. -/
def protoHumidity (waste : List WasteInput) (x : List ℚ) : ℚ :=
  1/2 * petcokeHumidity + dot (waste.map (fun w => w.humidity)) x

/-- Recomputed total sulfur of the mix. -/
def protoSulfur (waste : List WasteInput) (x : List ℚ) : ℚ :=
  1/2 * petcokeSulfur + dot (waste.map (fun w => w.sulfur)) x

/-- The reported waste part of the mix dict: percentage round(val*100, 2)
when the value is truthy, kept when the percentage is positive. -/
def protocolMixTail (waste : List WasteInput) (x : List ℚ) :
    List (String × ℚ) :=
  (waste.zip x).filterMap (fun p =>
    let pct := if p.2 = 0 then (0 : ℚ) else pyRound 2 (p.2 * 100)
    if 0 < pct then some (p.1.name, pct) else none)

/-- The solution vector the protocol formulation receives from its solver. -/
def protocolSolvedVec (waste : List WasteInput) (cons : PConstraints)
    (solver : List LinCon → List (ℚ × ℚ) → List ℚ → PulpResult) : List ℚ :=
  (solver (buildProtocolCons waste cons) (protocolBounds waste)
    (waste.map (fun w => w.pci))).x

/-- WasteMixOptimizer.solve_optimal_mix of advanced_optimizer.py, with the
CBC solver passed as an oracle over the built problem. -/
def solve_optimal_mix (waste : List WasteInput) (cons : PConstraints)
    (solver : List LinCon → List (ℚ × ℚ) → List ℚ → PulpResult) :
    OptimizationResult :=
  let res := solver (buildProtocolCons waste cons) (protocolBounds waste)
    (waste.map (fun w => w.pci))
  let objVal := protocolObjective waste res.x
  { status := LpStatus res.status
    mix := ("Petcoke (Base)", 50) :: protocolMixTail waste res.x
    objective_value := if objVal = 0 then 0 else pyRound 2 objVal
    details_chlorine := pyRound 5 (protoChlorine waste res.x)
    details_humidity := pyRound 5 (protoHumidity waste res.x)
    details_sulfur := pyRound 5 (protoSulfur waste res.x) }

/-- Projection of a WasteStream onto the fields the free formulation reads:
name, calorific value, chloride, sulfur, cost and available mass (humidity
and density omitted). -/
def coreFields (w : WasteStream) : String × ℚ × ℚ × ℚ × ℚ × ℚ :=
  (w.name, w.pci_value, w.chloride_content, w.sulfur_content, w.cost,
    w.available_mass)

/-! ## Concrete instances used to exercise the definitions -/

/-- The Tires stream of the optimization_engine.py test block. -/
def demoTires : WasteStream :=
  ⟨"Tires", 7500, 2/100, 1/100, 3/2, 4/10, 50, 5⟩

/-- The RDF stream of the optimization_engine.py test block. -/
def demoRDF : WasteStream :=
  ⟨"RDF_High_Quality", 4500, 15/100, 5/10, 3/10, 2/10, 20, 10⟩

/-- The kiln parameters of the optimization_engine.py test block. -/
def demoParams : KilnOperationalParameters :=
  ⟨4500, 1, 8/10, 8/10, 15⟩

/-- A waste input A with calorific value 8000 and unlimited stock. -/
def wasteA : WasteInput := ⟨"A", 8000, 0, 0, 0, 1000000⟩

/-- A waste input B with calorific value 4000 and unlimited stock. -/
def wasteB : WasteInput := ⟨"B", 4000, 0, 0, 0, 1000000⟩

/-- An empty constraints dict: no quality limit configured. -/
def noLimits : PConstraints := ⟨none, none, none, none⟩

/-- A constraints dict whose minimum calorific value exceeds what any mix of
wasteA and wasteB can reach. -/
def highPciLimits : PConstraints := ⟨none, none, none, some 10000⟩

/-- A stream with zero available stock. -/
def zeroStockStream : WasteStream := ⟨"Exhausted", 5000, 1/10, 1/100, 1/10, 1/2, 25, 0⟩

/-- A waste input with zero stock. -/
def zeroStockInput : WasteInput := ⟨"Exhausted", 5000, 1/100, 1/10, 1/10, 0⟩

/-- The Tires stream with different humidity and density only. -/
def demoTiresWet : WasteStream :=
  ⟨"Tires", 7500, 1/2, 1/100, 3/2, 2, 50, 5⟩

/-- A stream with a negative calorific value. -/
def badPciStream : WasteStream := ⟨"BadPci", -1, 0, 0, 0, 0, 0, 1⟩

/-- A stream with negative available stock. -/
def badStockStream : WasteStream := ⟨"BadStock", 100, 0, 0, 0, 0, 0, -1⟩

/-- A constant scipy oracle. -/
def scipyConst (s : ScipyStatus) (x : List ℚ) (obj : ℚ) (msg : String) :
    LinearProgram → ScipyResult :=
  fun _ => ⟨s, x, obj, msg⟩

/-- A constant CBC oracle. -/
def pulpConst (s : PulpStatus) (x : List ℚ) :
    List LinCon → List (ℚ × ℚ) → List ℚ → PulpResult :=
  fun _ _ _ => ⟨s, x⟩

/-! ## Helper lemmas -/

theorem dot_map_sub {α : Type} (f : α → ℚ) (L : ℚ) (ws : List α) (x : List ℚ)
    (h : x.length = ws.length) :
    dot (ws.map (fun w => f w - L)) x = dot (ws.map f) x - L * x.sum := by
  induction ws generalizing x with
  | nil =>
    cases x with
    | nil => simp [dot]
    | cons v xs => simp at h
  | cons w t ih =>
    cases x with
    | nil => simp at h
    | cons v xs =>
      have h' : xs.length = t.length := by simpa using h
      have hrec := ih xs h'
      simp only [List.map_cons, dot, List.zipWith_cons_cons, List.sum_cons] at hrec ⊢
      rw [hrec]
      ring

theorem dot_map_ones {α : Type} (ws : List α) (x : List ℚ)
    (h : x.length = ws.length) :
    dot (ws.map (fun _ => (1 : ℚ))) x = x.sum := by
  induction ws generalizing x with
  | nil =>
    cases x with
    | nil => simp [dot]
    | cons v xs => simp at h
  | cons w t ih =>
    cases x with
    | nil => simp at h
    | cons v xs =>
      have h' : xs.length = t.length := by simpa using h
      have hrec := ih xs h'
      simp only [List.map_cons, dot, List.zipWith_cons_cons, List.sum_cons] at hrec ⊢
      rw [hrec]
      ring

theorem dot_map_neg {α : Type} (f : α → ℚ) (ws : List α) (x : List ℚ) :
    dot (ws.map (fun w => -(f w))) x = -dot (ws.map f) x := by
  induction ws generalizing x with
  | nil => simp [dot]
  | cons w t ih =>
    cases x with
    | nil => simp [dot]
    | cons v xs =>
      simp only [List.map_cons, dot, List.zipWith_cons_cons, List.sum_cons] at ih ⊢
      rw [ih]
      ring

theorem roundHalfEven_sub_abs_le (q : ℚ) : |(roundHalfEven q : ℚ) - q| ≤ 1/2 := by
  have h0 : 0 ≤ q - ⌊q⌋ := by
    have := Int.fract_nonneg q
    rw [Int.fract] at this
    exact this
  have h1 : q - ⌊q⌋ < 1 := by
    have := Int.fract_lt_one q
    rw [Int.fract] at this
    exact this
  unfold roundHalfEven
  split_ifs with hlt hgt heven <;>
    · rw [abs_le]
      constructor <;> push_cast <;> linarith

theorem pyRound_sub_abs_le (n : ℕ) (q : ℚ) :
    |pyRound n q - q| ≤ 1 / (2 * 10 ^ n) := by
  have hp : (0 : ℚ) < 10 ^ n := by positivity
  have h := roundHalfEven_sub_abs_le (q * 10 ^ n)
  have key : pyRound n q - q =
      ((roundHalfEven (q * 10 ^ n) : ℚ) - q * 10 ^ n) / 10 ^ n := by
    unfold pyRound
    field_simp
    ring
  rw [key, abs_div, abs_of_pos hp, div_le_div_iff₀ hp (by positivity)]
  nlinarith [abs_nonneg ((roundHalfEven (q * 10 ^ n) : ℚ) - q * 10 ^ n)]

theorem map_congr_of_map_eq {α β γ : Type} (g : α → β) (f : α → γ)
    (hfg : ∀ a b, g a = g b → f a = f b) :
    ∀ l₁ l₂ : List α, l₁.map g = l₂.map g → l₁.map f = l₂.map f := by
  intro l₁
  induction l₁ with
  | nil =>
    intro l₂ h
    cases l₂ with
    | nil => rfl
    | cons b t => simp at h
  | cons a t ih =>
    intro l₂ h
    cases l₂ with
    | nil => simp at h
    | cons b u =>
      simp only [List.map_cons, List.cons.injEq] at h ⊢
      exact ⟨hfg a b h.1, ih u h.2⟩

theorem filtered_map_congr {β γ : Type} (g : WasteStream → β)
    (f : WasteStream × ℚ → γ)
    (hf : ∀ w₁ w₂ v, g w₁ = g w₂ → f (w₁, v) = f (w₂, v)) :
    ∀ (ws₁ ws₂ : List WasteStream) (x : List ℚ), ws₁.map g = ws₂.map g →
      (filteredEntries ws₁ x).map f = (filteredEntries ws₂ x).map f := by
  intro ws₁
  induction ws₁ with
  | nil =>
    intro ws₂ x h
    cases ws₂ with
    | nil => rfl
    | cons b t => simp at h
  | cons a t ih =>
    intro ws₂ x h
    cases ws₂ with
    | nil => simp at h
    | cons b u =>
      simp only [List.map_cons, List.cons.injEq] at h
      cases x with
      | nil => rfl
      | cons v xs =>
        simp only [filteredEntries, List.zip_cons_cons]
        have htail := ih u xs h.2
        simp only [filteredEntries] at htail
        by_cases hv : (1 : ℚ)/1000 < v
        · rw [List.filter_cons_of_pos (by simpa using hv),
            List.filter_cons_of_pos (by simpa using hv),
            List.map_cons, List.map_cons, htail, hf a b v h.1]
        · rw [List.filter_cons_of_neg (by simpa using hv),
            List.filter_cons_of_neg (by simpa using hv), htail]

theorem mem_filteredEntries {ws : List WasteStream} {x : List ℚ}
    {p : WasteStream × ℚ} (h : p ∈ filteredEntries ws x) :
    (∃ i : ℕ, ws[i]? = some p.1 ∧ x[i]? = some p.2) ∧ 1/1000 < p.2 := by
  unfold filteredEntries at h
  rw [List.mem_filter] at h
  obtain ⟨hz, hcond⟩ := h
  refine ⟨?_, by simpa using hcond⟩
  rw [List.mem_iff_getElem?] at hz
  obtain ⟨i, hi⟩ := hz
  exact ⟨i, List.getElem?_zip_eq_some.1 hi⟩

theorem mem_protocolMixTail {waste : List WasteInput} {x : List ℚ}
    {e : String × ℚ} (h : e ∈ protocolMixTail waste x) :
    ∃ i : ℕ, ∃ w : WasteInput, ∃ v : ℚ, waste[i]? = some w ∧ x[i]? = some v ∧
      e.1 = w.name ∧ v ≠ 0 ∧ 0 < pyRound 2 (v * 100) := by
  unfold protocolMixTail at h
  rw [List.mem_filterMap] at h
  obtain ⟨a, ha, hfa⟩ := h
  rw [List.mem_iff_getElem?] at ha
  obtain ⟨i, hi⟩ := ha
  obtain ⟨hw, hv⟩ := List.getElem?_zip_eq_some.1 hi
  have hfa' : (if 0 < (if a.2 = 0 then (0 : ℚ) else pyRound 2 (a.2 * 100)) then
      some (a.1.name, (if a.2 = 0 then (0 : ℚ) else pyRound 2 (a.2 * 100)))
      else none) = some e := hfa
  by_cases hz : a.2 = 0
  · rw [if_pos hz, if_neg (lt_irrefl (0 : ℚ))] at hfa'
    exact absurd hfa' (by simp)
  · rw [if_neg hz] at hfa'
    by_cases hpos : 0 < pyRound 2 (a.2 * 100)
    · rw [if_pos hpos, Option.some.injEq] at hfa'
      exact ⟨i, a.1, a.2, hw, hv, by rw [← hfa'], hz, hpos⟩
    · rw [if_neg hpos] at hfa'
      exact absurd hfa' (by simp)

theorem forall₂_of_getElem?_left {α β : Type} {R : α → β → Prop}
    {l₁ : List α} {l₂ : List β} (h : List.Forall₂ R l₁ l₂) :
    ∀ {i : ℕ} {a : α}, l₁[i]? = some a → ∃ b, l₂[i]? = some b ∧ R a b := by
  induction h with
  | nil =>
    intro i a ha
    simp at ha
  | cons hR htail ih =>
    intro i a ha
    cases i with
    | zero =>
      simp only [List.getElem?_cons_zero, Option.some.injEq] at ha ⊢
      exact ⟨_, rfl, ha ▸ hR⟩
    | succ n =>
      simp only [List.getElem?_cons_succ] at ha ⊢
      exact ih ha

theorem protocolMixTail_eq_nil {waste : List WasteInput} {x : List ℚ}
    (h : ∀ v ∈ x, v = 0) : protocolMixTail waste x = [] := by
  unfold protocolMixTail
  rw [List.filterMap_eq_nil_iff]
  intro p hp
  have hz : p.2 = 0 := h p.2 (List.of_mem_zip hp).2
  rw [if_pos hz, if_neg (lt_irrefl (0 : ℚ))]

/-! ## Claim theorems -/

/-- C1: in the free-allocation formulation every weighted-average chemical
limit is linearized exactly. The model builder emits the rows
sum of x i times (P i minus L) against right-hand side 0 for the sulfur
limit, the chloride limit and both sides of the calorific-value band
[0.95 target, 1.05 target], and for every vector of positive total mass each
row holds exactly when the corresponding non-linear weighted-average bound
holds. -/
theorem free_chemical_limits_linearized (ws : List WasteStream)
    (params : KilnOperationalParameters) (x : List ℚ)
    (hlen : x.length = ws.length) (hm : 0 < x.sum) :
    ((buildFreeLP ws params).A_ub =
      [ws.map (fun _ => (1 : ℚ)),
       ws.map (fun w => w.sulfur_content - params.max_sulfur),
       ws.map (fun w => w.chloride_content - params.max_chloride),
       ws.map (fun w => -(w.pci_value - 95/100 * params.target_pci)),
       ws.map (fun w => w.pci_value - 105/100 * params.target_pci)] ∧
     (buildFreeLP ws params).b_ub = [params.feed_rate_capacity, 0, 0, 0, 0]) ∧
    (dot (ws.map (fun w => w.sulfur_content - params.max_sulfur)) x ≤ 0 ↔
      dot (ws.map (fun w => w.sulfur_content)) x / x.sum ≤ params.max_sulfur) ∧
    (dot (ws.map (fun w => w.chloride_content - params.max_chloride)) x ≤ 0 ↔
      dot (ws.map (fun w => w.chloride_content)) x / x.sum ≤ params.max_chloride) ∧
    (dot (ws.map (fun w => -(w.pci_value - 95/100 * params.target_pci))) x ≤ 0 ↔
      95/100 * params.target_pci ≤ dot (ws.map (fun w => w.pci_value)) x / x.sum) ∧
    (dot (ws.map (fun w => w.pci_value - 105/100 * params.target_pci)) x ≤ 0 ↔
      dot (ws.map (fun w => w.pci_value)) x / x.sum ≤ 105/100 * params.target_pci) := by
  refine ⟨⟨rfl, rfl⟩, ?_, ?_, ?_, ?_⟩
  · rw [dot_map_sub _ _ _ _ hlen, div_le_iff₀ hm]
    constructor <;> intro h <;> linarith
  · rw [dot_map_sub _ _ _ _ hlen, div_le_iff₀ hm]
    constructor <;> intro h <;> linarith
  · rw [dot_map_neg, dot_map_sub _ _ _ _ hlen, le_div_iff₀ hm]
    constructor <;> intro h <;> linarith
  · rw [dot_map_sub _ _ _ _ hlen, div_le_iff₀ hm]
    constructor <;> intro h <;> linarith

/-- Witness for C1 at the concrete stream list [demoTires] and vector [1]. -/
theorem free_chemical_limits_linearized_witness :
    (([(1 : ℚ)].length = [demoTires].length ∧ (0 : ℚ) < [(1 : ℚ)].sum) ∧
      ((buildFreeLP [demoTires] demoParams).b_ub =
        [demoParams.feed_rate_capacity, 0, 0, 0, 0] ∧
       (dot ([demoTires].map
          (fun w => w.sulfur_content - demoParams.max_sulfur)) [1] ≤ 0 ↔
        dot ([demoTires].map (fun w => w.sulfur_content)) [1] / [(1 : ℚ)].sum ≤
          demoParams.max_sulfur))) :=
  ⟨⟨rfl, by norm_num⟩,
    ((free_chemical_limits_linearized [demoTires] demoParams [1] rfl
      (by norm_num)).1.2),
    ((free_chemical_limits_linearized [demoTires] demoParams [1] rfl
      (by norm_num)).2.1)⟩

/-- C2: in the protocol formulation the built problem always contains the
equality mass-balance constraint (sum of the non-fixed fractions equals
exactly 0.50), and every feasible assignment has sum exactly one half with
each fraction in [0, 0.5]. -/
theorem protocol_mass_balance_equality (waste : List WasteInput)
    (cons : PConstraints) (x : List ℚ) (h : protocolFeasible waste cons x) :
    (⟨0, waste.map (fun _ => (1 : ℚ)), Sense.eq, 1/2⟩ : LinCon) ∈
      buildProtocolCons waste cons ∧
    x.length = waste.length ∧ x.sum = 1/2 ∧ ∀ v ∈ x, 0 ≤ v ∧ v ≤ 1/2 := by
  obtain ⟨hb, hc⟩ := h
  have hmem : (⟨0, waste.map (fun _ => (1 : ℚ)), Sense.eq, 1/2⟩ : LinCon) ∈
      buildProtocolCons waste cons := by
    unfold buildProtocolCons
    simp
  have hlen : x.length = waste.length := by
    have := List.Forall₂.length_eq hb
    simpa [protocolBounds] using this.symm
  have hsat := hc _ hmem
  unfold LinCon.sat at hsat
  simp only at hsat
  rw [dot_map_ones waste x hlen] at hsat
  refine ⟨hmem, hlen, by linarith [hsat], ?_⟩
  intro v hv
  obtain ⟨i, hi, hxi⟩ := List.mem_iff_getElem.1 hv
  obtain ⟨hleq, hR⟩ := List.forall₂_iff_get.1 hb
  have hib : i < (protocolBounds waste).length := by
    simpa [protocolBounds, ← hlen] using hi
  have hrel := hR i hib hi
  rw [List.get_eq_getElem, List.get_eq_getElem] at hrel
  have hiw : i < waste.length := hlen ▸ hi
  have hbget : (protocolBounds waste)[i] = (0, protocolUpBound waste[i]) := by
    simp [protocolBounds]
  rw [hbget] at hrel
  obtain ⟨h0, h1⟩ := hrel
  rw [hxi] at h0 h1
  refine ⟨h0, le_trans h1 ?_⟩
  unfold protocolUpBound
  split <;> norm_num

/-- Witness for C2 at the concrete request [wasteA] without limits and the
assignment [1/2]. -/
theorem protocol_mass_balance_equality_witness :
    protocolFeasible [wasteA] noLimits [1/2] ∧
    ([(1/2 : ℚ)].sum = 1/2 ∧ ∀ v ∈ [(1/2 : ℚ)], 0 ≤ v ∧ v ≤ 1/2) := by
  have hfeas : protocolFeasible [wasteA] noLimits [1/2] := by
    constructor
    · unfold respectsBounds protocolBounds protocolUpBound wasteA
      refine List.Forall₂.cons ?_ List.Forall₂.nil
      norm_num
    · intro c hc
      unfold buildProtocolCons noLimits at hc
      simp at hc
      subst hc
      unfold LinCon.sat dot
      norm_num
  have h := protocol_mass_balance_equality [wasteA] noLimits [1/2] hfeas
  exact ⟨hfeas, h.2.2.1, h.2.2.2⟩

/-- C3: a material with non-positive available stock never receives a
reported allocation. In the protocol formulation its variable upper bound
is forced to 0 and every feasible assignment gives it exactly 0, keeping it
out of the reported mix; in the free formulation its variable is bounded in
[0, available_mass] (hence [0, 0] at zero stock) and any solution within
bounds gives it exactly 0, keeping it out of the reported mix. -/
theorem zero_stock_zero_allocation :
    (∀ (waste : List WasteInput) (i : ℕ) (w : WasteInput),
      waste[i]? = some w → w.stock ≤ 0 →
      (protocolBounds waste)[i]? = some (0, 0) ∧
      ∀ (cons : PConstraints) (x : List ℚ), protocolFeasible waste cons x →
        x[i]? = some 0 ∧
        ((waste.map (fun u => u.name)).Nodup →
          ∀ q ∈ protocolMixTail waste x, q.1 ≠ w.name)) ∧
    (∀ (ws : List WasteStream) (params : KilnOperationalParameters) (i : ℕ)
      (w : WasteStream), ws[i]? = some w → w.available_mass ≤ 0 →
      (buildFreeLP ws params).bounds[i]? = some (0, w.available_mass) ∧
      (w.available_mass = 0 →
        (buildFreeLP ws params).bounds[i]? = some (0, 0)) ∧
      ∀ x : List ℚ, respectsBounds (buildFreeLP ws params).bounds x →
        x[i]? = some 0 ∧
        ((ws.map (fun u => u.name)).Nodup →
          ∀ q ∈ freeMix ws x, q.1 ≠ w.name)) := by
  constructor
  · intro waste i w hw hst
    have hub : protocolUpBound w = 0 := by
      unfold protocolUpBound
      rw [if_pos hst]
    have hb : (protocolBounds waste)[i]? = some (0, 0) := by
      unfold protocolBounds
      rw [List.getElem?_map, hw]
      simp [hub]
    refine ⟨hb, ?_⟩
    intro cons x hfeas
    obtain ⟨hbounds, _⟩ := hfeas
    obtain ⟨v, hv, hRv⟩ := forall₂_of_getElem?_left hbounds hb
    have hv0 : v = 0 := le_antisymm hRv.2 hRv.1
    rw [hv0] at hv
    refine ⟨hv, ?_⟩
    intro hnodup q hq hqname
    obtain ⟨j, w', v', hw', hv', hqn, hvne, _⟩ := mem_protocolMixTail hq
    have hnamei : (waste.map (fun u => u.name))[i]? = some w.name := by
      rw [List.getElem?_map, hw]
      rfl
    have hnamej : (waste.map (fun u => u.name))[j]? = some w'.name := by
      rw [List.getElem?_map, hw']
      rfl
    have hij : i = j := by
      refine List.getElem?_inj ?_ hnodup ?_
      · exact (List.getElem?_eq_some.1 hnamei).1
      · rw [hnamei, hnamej]
        exact congrArg some (by rw [← hqname, hqn])
    rw [← hij] at hv'
    rw [hv] at hv'
    exact hvne (Option.some.injEq _ _ ▸ hv'.symm)
  · intro ws params i w hw hst
    have hb : (buildFreeLP ws params).bounds[i]? = some (0, w.available_mass) := by
      unfold buildFreeLP
      simp only
      rw [List.getElem?_map, hw]
      rfl
    refine ⟨hb, fun h0 => by rw [hb, h0], ?_⟩
    intro x hbounds
    obtain ⟨v, hv, hRv⟩ := forall₂_of_getElem?_left hbounds hb
    have hv0 : v = 0 := le_antisymm (le_trans hRv.2 hst) hRv.1
    rw [hv0] at hv
    refine ⟨hv, ?_⟩
    intro hnodup q hq hqname
    unfold freeMix at hq
    rw [List.mem_map] at hq
    obtain ⟨p, hp, hpq⟩ := hq
    obtain ⟨⟨j, hw', hv'⟩, hpos⟩ := mem_filteredEntries hp
    have hnamei : (ws.map (fun u => u.name))[i]? = some w.name := by
      rw [List.getElem?_map, hw]
      rfl
    have hnamej : (ws.map (fun u => u.name))[j]? = some p.1.name := by
      rw [List.getElem?_map, hw']
      rfl
    have hij : i = j := by
      refine List.getElem?_inj ?_ hnodup ?_
      · exact (List.getElem?_eq_some.1 hnamei).1
      · rw [hnamei, hnamej]
        refine congrArg some ?_
        rw [← hqname, ← hpq]
    rw [← hij] at hv'
    rw [hv] at hv'
    have : p.2 = 0 := (Option.some.injEq _ _ ▸ hv').symm
    rw [this] at hpos
    norm_num at hpos

/-- Witness for C3 at a concrete exhausted stream in both formulations. -/
theorem zero_stock_zero_allocation_witness :
    ((protocolBounds [zeroStockInput, wasteA])[0]? = some (0, 0) ∧
      [(0 : ℚ), 1/2][0]? = some 0) ∧
    ((buildFreeLP [zeroStockStream] demoParams).bounds[0]? = some (0, 0) ∧
      [(0 : ℚ)][0]? = some 0) := by
  have hproto := (zero_stock_zero_allocation.1 [zeroStockInput, wasteA] 0
    zeroStockInput rfl (by norm_num [zeroStockInput]))
  have hfeas : protocolFeasible [zeroStockInput, wasteA] noLimits [0, 1/2] := by
    constructor
    · unfold respectsBounds protocolBounds protocolUpBound zeroStockInput wasteA
      refine List.Forall₂.cons ?_ (List.Forall₂.cons ?_ List.Forall₂.nil) <;>
        norm_num
    · intro c hc
      unfold buildProtocolCons noLimits at hc
      simp at hc
      subst hc
      unfold LinCon.sat dot
      norm_num
  have hfree := (zero_stock_zero_allocation.2 [zeroStockStream] demoParams 0
    zeroStockStream rfl (by norm_num [zeroStockStream]))
  have hrb : respectsBounds (buildFreeLP [zeroStockStream] demoParams).bounds [0] := by
    unfold respectsBounds buildFreeLP zeroStockStream
    refine List.Forall₂.cons ?_ List.Forall₂.nil
    norm_num
  exact ⟨⟨hproto.1, (hproto.2 noLimits [0, 1/2] hfeas).1⟩,
    ⟨hfree.2.1 rfl, (hfree.2.2 [0] hrb).1⟩⟩

/-- C4: every solved result reports derived metrics that are the rounded
weighted sums recomputed from the solved allocation vector (within the
rounding half-step of the exact recomputation), and the reported result
never depends on the solver-reported objective value. -/
theorem derived_metrics_recomputed :
    (∀ (ws : List WasteStream) (params : KilnOperationalParameters)
      (solver : LinearProgram → ScipyResult),
      (solver (buildFreeLP ws params)).success = true →
      (calculate_optimal_mix ws params solver =
        FreeResult.achieved (freeMix ws (solvedVec ws params solver))
          (pyRound 2 (freeTotalMass ws (solvedVec ws params solver)))
          (pyRound 2 (freeAvg (freeTotalHeat ws (solvedVec ws params solver))
            (freeTotalMass ws (solvedVec ws params solver))))
          (pyRound 4 (freeAvg (freeTotalSulfur ws (solvedVec ws params solver))
            (freeTotalMass ws (solvedVec ws params solver))))
          (pyRound 4 (freeAvg (freeTotalChloride ws (solvedVec ws params solver))
            (freeTotalMass ws (solvedVec ws params solver))))
          (pyRound 2 (freeTotalCost ws (solvedVec ws params solver)))) ∧
      |pyRound 2 (freeTotalMass ws (solvedVec ws params solver)) -
        freeTotalMass ws (solvedVec ws params solver)| ≤ 1/200 ∧
      |pyRound 2 (freeAvg (freeTotalHeat ws (solvedVec ws params solver))
          (freeTotalMass ws (solvedVec ws params solver))) -
        freeAvg (freeTotalHeat ws (solvedVec ws params solver))
          (freeTotalMass ws (solvedVec ws params solver))| ≤ 1/200 ∧
      |pyRound 4 (freeAvg (freeTotalSulfur ws (solvedVec ws params solver))
          (freeTotalMass ws (solvedVec ws params solver))) -
        freeAvg (freeTotalSulfur ws (solvedVec ws params solver))
          (freeTotalMass ws (solvedVec ws params solver))| ≤ 1/20000 ∧
      |pyRound 4 (freeAvg (freeTotalChloride ws (solvedVec ws params solver))
          (freeTotalMass ws (solvedVec ws params solver))) -
        freeAvg (freeTotalChloride ws (solvedVec ws params solver))
          (freeTotalMass ws (solvedVec ws params solver))| ≤ 1/20000 ∧
      |pyRound 2 (freeTotalCost ws (solvedVec ws params solver)) -
        freeTotalCost ws (solvedVec ws params solver)| ≤ 1/200) ∧
    (∀ (ws : List WasteStream) (params : KilnOperationalParameters)
      (s₁ s₂ : LinearProgram → ScipyResult),
      (s₁ (buildFreeLP ws params)).status = (s₂ (buildFreeLP ws params)).status →
      (s₁ (buildFreeLP ws params)).x = (s₂ (buildFreeLP ws params)).x →
      (s₁ (buildFreeLP ws params)).message = (s₂ (buildFreeLP ws params)).message →
      calculate_optimal_mix ws params s₁ = calculate_optimal_mix ws params s₂) ∧
    (∀ (waste : List WasteInput) (cons : PConstraints)
      (solver : List LinCon → List (ℚ × ℚ) → List ℚ → PulpResult),
      ((solve_optimal_mix waste cons solver).details_chlorine =
        pyRound 5 (protoChlorine waste (protocolSolvedVec waste cons solver)) ∧
       |(solve_optimal_mix waste cons solver).details_chlorine -
         protoChlorine waste (protocolSolvedVec waste cons solver)| ≤ 1/200000) ∧
      ((solve_optimal_mix waste cons solver).details_humidity =
        pyRound 5 (protoHumidity waste (protocolSolvedVec waste cons solver)) ∧
       |(solve_optimal_mix waste cons solver).details_humidity -
         protoHumidity waste (protocolSolvedVec waste cons solver)| ≤ 1/200000) ∧
      ((solve_optimal_mix waste cons solver).details_sulfur =
        pyRound 5 (protoSulfur waste (protocolSolvedVec waste cons solver)) ∧
       |(solve_optimal_mix waste cons solver).details_sulfur -
         protoSulfur waste (protocolSolvedVec waste cons solver)| ≤ 1/200000)) := by
  refine ⟨?_, ?_, ?_⟩
  · intro ws params solver h
    refine ⟨?_, ?_, ?_, ?_, ?_, ?_⟩
    · simp only [calculate_optimal_mix, solvedVec]
      rw [if_pos h]
    · exact le_of_le_of_eq (pyRound_sub_abs_le 2 _) (by norm_num)
    · exact le_of_le_of_eq (pyRound_sub_abs_le 2 _) (by norm_num)
    · exact le_of_le_of_eq (pyRound_sub_abs_le 4 _) (by norm_num)
    · exact le_of_le_of_eq (pyRound_sub_abs_le 4 _) (by norm_num)
    · exact le_of_le_of_eq (pyRound_sub_abs_le 2 _) (by norm_num)
  · intro ws params s₁ s₂ hst hx hmsg
    have hsucc : (s₁ (buildFreeLP ws params)).success =
        (s₂ (buildFreeLP ws params)).success := by
      unfold ScipyResult.success
      rw [hst]
    simp only [calculate_optimal_mix]
    rw [hsucc, hx, hmsg]
  · intro waste cons solver
    refine ⟨⟨rfl, ?_⟩, ⟨rfl, ?_⟩, ⟨rfl, ?_⟩⟩ <;>
      exact le_of_le_of_eq (pyRound_sub_abs_le 5 _) (by norm_num)

/-- Witness for C4 at concrete solved requests in both formulations,
including independence from the reported objective value (0 versus 5). -/
theorem derived_metrics_recomputed_witness :
    |pyRound 2 (freeTotalMass [demoTires]
        (solvedVec [demoTires] demoParams (scipyConst ScipyStatus.optimal [2] 0 "ok"))) -
      freeTotalMass [demoTires]
        (solvedVec [demoTires] demoParams (scipyConst ScipyStatus.optimal [2] 0 "ok"))| ≤ 1/200 ∧
    calculate_optimal_mix [demoTires] demoParams
        (scipyConst ScipyStatus.optimal [2] 0 "ok") =
      calculate_optimal_mix [demoTires] demoParams
        (scipyConst ScipyStatus.optimal [2] 5 "ok") ∧
    (solve_optimal_mix [wasteA] noLimits
        (pulpConst PulpStatus.optimal [1/2])).details_sulfur =
      pyRound 5 (protoSulfur [wasteA]
        (protocolSolvedVec [wasteA] noLimits (pulpConst PulpStatus.optimal [1/2]))) :=
  ⟨(derived_metrics_recomputed.1 [demoTires] demoParams
      (scipyConst ScipyStatus.optimal [2] 0 "ok") rfl).2.1,
   derived_metrics_recomputed.2.1 [demoTires] demoParams
      (scipyConst ScipyStatus.optimal [2] 0 "ok")
      (scipyConst ScipyStatus.optimal [2] 5 "ok") rfl rfl rfl,
   ((derived_metrics_recomputed.2.2 [wasteA] noLimits
      (pulpConst PulpStatus.optimal [1/2])).2.2).1⟩

/-- C5 counterexample: in the free formulation an infeasible LP, an
unbounded LP and a numerical failure all receive the same generic result
status, so the three failure kinds are not mapped to distinct statuses. -/
theorem free_failure_statuses_collapse_cex :
    (calculate_optimal_mix [demoTires] demoParams
      (scipyConst ScipyStatus.infeasible [] 0
        "The problem is infeasible.")).status = "Optimization Failed" ∧
    (calculate_optimal_mix [demoTires] demoParams
      (scipyConst ScipyStatus.unbounded [] 0
        "The problem is unbounded.")).status = "Optimization Failed" ∧
    (calculate_optimal_mix [demoTires] demoParams
      (scipyConst ScipyStatus.numericalError [] 0
        "Numerical difficulties encountered.")).status = "Optimization Failed" :=
  ⟨rfl, rfl, rfl⟩

/-- C5 amended: the protocol formulation reports the solver status through
the LpStatus table, which keeps the three failure kinds distinct from each
other and from Optimal; the free formulation reports the single generic
status Optimization Failed for every solver failure kind, and Target
Achieved exactly on solver success (never mis-reporting a failure as
success). -/
theorem solver_status_mapping_amended :
    (∀ (waste : List WasteInput) (cons : PConstraints)
      (solver : List LinCon → List (ℚ × ℚ) → List ℚ → PulpResult),
      (solve_optimal_mix waste cons solver).status =
        LpStatus (solver (buildProtocolCons waste cons) (protocolBounds waste)
          (waste.map (fun w => w.pci))).status) ∧
    (LpStatus PulpStatus.infeasible ≠ LpStatus PulpStatus.unbounded ∧
     LpStatus PulpStatus.infeasible ≠ LpStatus PulpStatus.undefined ∧
     LpStatus PulpStatus.unbounded ≠ LpStatus PulpStatus.undefined ∧
     LpStatus PulpStatus.infeasible ≠ LpStatus PulpStatus.optimal ∧
     LpStatus PulpStatus.unbounded ≠ LpStatus PulpStatus.optimal ∧
     LpStatus PulpStatus.undefined ≠ LpStatus PulpStatus.optimal) ∧
    (∀ (ws : List WasteStream) (params : KilnOperationalParameters)
      (solver : LinearProgram → ScipyResult),
      (solver (buildFreeLP ws params)).status ≠ ScipyStatus.optimal →
      (calculate_optimal_mix ws params solver).status = "Optimization Failed") ∧
    (∀ (ws : List WasteStream) (params : KilnOperationalParameters)
      (solver : LinearProgram → ScipyResult),
      (solver (buildFreeLP ws params)).status = ScipyStatus.optimal →
      (calculate_optimal_mix ws params solver).status = "Target Achieved") := by
  refine ⟨fun _ _ _ => rfl, by refine ⟨?_, ?_, ?_, ?_, ?_, ?_⟩ <;> decide,
    ?_, ?_⟩
  · intro ws params solver h
    have hs : (solver (buildFreeLP ws params)).success = false := by
      unfold ScipyResult.success
      cases hst : (solver (buildFreeLP ws params)).status <;>
        first
        | rfl
        | exact absurd hst h
    simp [calculate_optimal_mix, hs, FreeResult.status]
  · intro ws params solver h
    have hs : (solver (buildFreeLP ws params)).success = true := by
      unfold ScipyResult.success
      rw [h]
    simp [calculate_optimal_mix, hs, FreeResult.status]

/-- Witness for the amended C5 at concrete solver outcomes. -/
theorem solver_status_mapping_amended_witness :
    (solve_optimal_mix [wasteA] noLimits
      (pulpConst PulpStatus.unbounded [0])).status =
      LpStatus PulpStatus.unbounded ∧
    (calculate_optimal_mix [demoTires] demoParams
      (scipyConst ScipyStatus.infeasible [] 0 "m")).status =
      "Optimization Failed" ∧
    (calculate_optimal_mix [demoTires] demoParams
      (scipyConst ScipyStatus.optimal [2] 0 "m")).status = "Target Achieved" :=
  ⟨solver_status_mapping_amended.1 [wasteA] noLimits
      (pulpConst PulpStatus.unbounded [0]),
   solver_status_mapping_amended.2.2.1 [demoTires] demoParams
      (scipyConst ScipyStatus.infeasible [] 0 "m") (by decide),
   solver_status_mapping_amended.2.2.2 [demoTires] demoParams
      (scipyConst ScipyStatus.optimal [2] 0 "m") rfl⟩

/-- C6 counterexample: on an infeasible protocol request (the amended C6
theorem proves this request has an empty feasible region) the returned
allocation mapping is not empty: it carries the fixed base material at
50.0; and the free formulation reports the generic failure status, not
Infeasible. -/
theorem infeasible_allocation_cex :
    (solve_optimal_mix [wasteA, wasteB] highPciLimits
      (pulpConst PulpStatus.infeasible [0, 0])).status = "Infeasible" ∧
    (solve_optimal_mix [wasteA, wasteB] highPciLimits
      (pulpConst PulpStatus.infeasible [0, 0])).mix = [("Petcoke (Base)", 50)] ∧
    (calculate_optimal_mix [demoTires] demoParams
      (scipyConst ScipyStatus.infeasible [] 0
        "The problem is infeasible.")).status = "Optimization Failed" := by
  refine ⟨rfl, ?_, rfl⟩
  show ("Petcoke (Base)", (50 : ℚ)) ::
    protocolMixTail [wasteA, wasteB] [0, 0] = [("Petcoke (Base)", 50)]
  rw [protocolMixTail_eq_nil (by decide)]

/-- C6 amended: an infeasible protocol solve yields status Infeasible and,
when the solver returns an all-zero vector, no waste allocation — but the
fixed base material is always reported at 50.0, so the mapping is never
empty; the free formulation returns the generic failure dictionary with no
allocation at all; both calls return a result rather than raising. The
request [wasteA, wasteB] with minimum calorific value 10000 really is
infeasible. -/
theorem infeasible_result_amended :
    (∀ (waste : List WasteInput) (cons : PConstraints)
      (solver : List LinCon → List (ℚ × ℚ) → List ℚ → PulpResult),
      (solver (buildProtocolCons waste cons) (protocolBounds waste)
        (waste.map (fun w => w.pci))).status = PulpStatus.infeasible →
      (solve_optimal_mix waste cons solver).status = "Infeasible" ∧
      (solve_optimal_mix waste cons solver).mix.head? =
        some ("Petcoke (Base)", 50) ∧
      ((∀ v ∈ protocolSolvedVec waste cons solver, v = 0) →
        (solve_optimal_mix waste cons solver).mix = [("Petcoke (Base)", 50)])) ∧
    (∀ (ws : List WasteStream) (params : KilnOperationalParameters)
      (solver : LinearProgram → ScipyResult),
      (solver (buildFreeLP ws params)).status = ScipyStatus.infeasible →
      calculate_optimal_mix ws params solver =
        FreeResult.failed (solver (buildFreeLP ws params)).message) ∧
    (∀ x : List ℚ, ¬ protocolFeasible [wasteA, wasteB] highPciLimits x) := by
  refine ⟨?_, ?_, ?_⟩
  · intro waste cons solver h
    refine ⟨by simp [solve_optimal_mix, h, LpStatus], rfl, ?_⟩
    intro hz
    have hz' : ∀ v ∈ (solver (buildProtocolCons waste cons)
        (protocolBounds waste) (waste.map (fun w => w.pci))).x, v = 0 := hz
    show ("Petcoke (Base)", (50 : ℚ)) :: protocolMixTail waste _ = _
    rw [protocolMixTail_eq_nil hz']
  · intro ws params solver h
    have hs : (solver (buildFreeLP ws params)).success = false := by
      unfold ScipyResult.success
      rw [h]
    simp [calculate_optimal_mix, hs]
  · intro x hfeas
    obtain ⟨hb, hc⟩ := hfeas
    have hbounds : protocolBounds [wasteA, wasteB] = [(0, 1/2), (0, 1/2)] := by
      norm_num [protocolBounds, protocolUpBound, wasteA, wasteB]
    rw [hbounds] at hb
    cases hb with
    | cons hA htail =>
      cases htail with
      | cons hB hnil =>
        cases hnil with
        | nil =>
          have h1 := hc ⟨0, [wasteA, wasteB].map (fun _ => (1 : ℚ)),
            Sense.eq, 1/2⟩ (by simp [buildProtocolCons, highPciLimits])
          have h2 := hc ⟨1/2 * petcokePci,
            [wasteA, wasteB].map (fun w => w.pci), Sense.ge, 10000⟩
            (by simp [buildProtocolCons, highPciLimits])
          unfold LinCon.sat dot at h1 h2
          norm_num [wasteA, wasteB, petcokePci] at h1 h2
          obtain ⟨_, hA2⟩ := hA
          obtain ⟨_, hB2⟩ := hB
          linarith

/-- Witness for the amended C6 at a concrete infeasible request. -/
theorem infeasible_result_amended_witness :
    (solve_optimal_mix [wasteA, wasteB] highPciLimits
      (pulpConst PulpStatus.infeasible [0, 0])).mix =
      [("Petcoke (Base)", 50)] ∧
    calculate_optimal_mix [demoTires] demoParams
      (scipyConst ScipyStatus.infeasible [] 0 "The problem is infeasible.") =
      FreeResult.failed "The problem is infeasible." ∧
    ¬ protocolFeasible [wasteA, wasteB] highPciLimits [] :=
  ⟨(infeasible_result_amended.1 [wasteA, wasteB] highPciLimits
      (pulpConst PulpStatus.infeasible [0, 0]) rfl).2.2 (by decide),
   infeasible_result_amended.2.1 [demoTires] demoParams
      (scipyConst ScipyStatus.infeasible [] 0 "The problem is infeasible.") rfl,
   infeasible_result_amended.2.2 []⟩

/-- C7 counterexample: a request holding the same material name twice
passes validation (no error is raised) and flows straight into LP
construction, producing a solved result. -/
theorem duplicate_name_not_validated_cex :
    validateStreams [demoTires, demoTires] =
      Except.ok [demoTires, demoTires] ∧
    (calculate_optimal_mix [demoTires, demoTires] demoParams
      (scipyConst ScipyStatus.optimal [2, 2] 0 "ok")).status =
      "Target Achieved" := by
  constructor
  · rfl
  · rfl

/-- C7 amended: constructing a Material with a negative calorific value or
negative available stock raises the matching ValueError before any LP
construction and valid materials pass through unchanged (never silently
corrected); a duplicate material name, however, is not validated and the
request proceeds. -/
theorem material_validation_amended :
    (∀ w : WasteStream, w.pci_value < 0 →
      w.postInit = Except.error "PCI value cannot be negative") ∧
    (∀ w : WasteStream, 0 ≤ w.pci_value → w.available_mass < 0 →
      w.postInit = Except.error "Available mass cannot be negative") ∧
    (∀ w : WasteStream, 0 ≤ w.pci_value → 0 ≤ w.available_mass →
      w.postInit = Except.ok w) ∧
    validateStreams [demoTires, demoTires] =
      Except.ok [demoTires, demoTires] := by
  refine ⟨?_, ?_, ?_, rfl⟩
  · intro w h
    unfold WasteStream.postInit
    rw [if_pos h]
  · intro w h1 h2
    unfold WasteStream.postInit
    rw [if_neg (not_lt.2 h1), if_pos h2]
  · intro w h1 h2
    unfold WasteStream.postInit
    rw [if_neg (not_lt.2 h1), if_neg (not_lt.2 h2)]

/-- Witness for the amended C7 at concrete invalid and valid streams. -/
theorem material_validation_amended_witness :
    badPciStream.postInit = Except.error "PCI value cannot be negative" ∧
    badStockStream.postInit = Except.error "Available mass cannot be negative" ∧
    demoTires.postInit = Except.ok demoTires :=
  ⟨material_validation_amended.1 badPciStream (by norm_num [badPciStream]),
   material_validation_amended.2.1 badStockStream (by norm_num [badStockStream])
     (by norm_num [badStockStream]),
   material_validation_amended.2.2.1 demoTires (by norm_num [demoTires])
     (by norm_num [demoTires])⟩

/-- C8: for the two-material protocol request A (calorific value 8000,
ample stock) and B (calorific value 4000, ample stock) with no chemistry
limits, the assignment giving the whole remaining half to A and nothing to
B is feasible and is the unique maximizer of the objective. -/
theorem highest_pci_takes_full_share :
    protocolFeasible [wasteA, wasteB] noLimits [1/2, 0] ∧
    ∀ x : List ℚ, protocolFeasible [wasteA, wasteB] noLimits x →
      protocolObjective [wasteA, wasteB] x ≤
        protocolObjective [wasteA, wasteB] [1/2, 0] ∧
      (protocolObjective [wasteA, wasteB] x =
        protocolObjective [wasteA, wasteB] [1/2, 0] → x = [1/2, 0]) := by
  constructor
  · constructor
    · unfold respectsBounds protocolBounds protocolUpBound wasteA wasteB
      refine List.Forall₂.cons ?_ (List.Forall₂.cons ?_ List.Forall₂.nil) <;>
        norm_num
    · intro c hc
      unfold buildProtocolCons noLimits at hc
      simp at hc
      subst hc
      unfold LinCon.sat dot
      norm_num [wasteA, wasteB]
  · intro x hfeas
    obtain ⟨hb, hc⟩ := hfeas
    have hbounds : protocolBounds [wasteA, wasteB] = [(0, 1/2), (0, 1/2)] := by
      norm_num [protocolBounds, protocolUpBound, wasteA, wasteB]
    rw [hbounds] at hb
    cases hb with
    | cons hA htail =>
      cases htail with
      | cons hB hnil =>
        cases hnil with
        | nil =>
          have h1 := hc ⟨0, [wasteA, wasteB].map (fun _ => (1 : ℚ)),
            Sense.eq, 1/2⟩ (by simp [buildProtocolCons, noLimits])
          unfold LinCon.sat dot at h1
          norm_num [wasteA, wasteB] at h1
          obtain ⟨hA1, hA2⟩ := hA
          obtain ⟨hB1, hB2⟩ := hB
          unfold protocolObjective dot petcokePci
          norm_num [wasteA, wasteB]
          constructor
          · linarith
          · intro heq
            constructor
            · linarith
            · linarith

/-- Witness for C8 at the second feasible point [0, 1/2]. -/
theorem highest_pci_takes_full_share_witness :
    protocolObjective [wasteA, wasteB] [0, 1/2] ≤
      protocolObjective [wasteA, wasteB] [1/2, 0] := by
  have hfeas : protocolFeasible [wasteA, wasteB] noLimits [0, 1/2] := by
    constructor
    · unfold respectsBounds protocolBounds protocolUpBound wasteA wasteB
      refine List.Forall₂.cons ?_ (List.Forall₂.cons ?_ List.Forall₂.nil) <;>
        norm_num
    · intro c hc
      unfold buildProtocolCons noLimits at hc
      simp at hc
      subst hc
      unfold LinCon.sat dot
      norm_num [wasteA, wasteB]
  exact (highest_pci_takes_full_share.2 [0, 1/2] hfeas).1

/-- C9 counterexample: with a solver reporting infeasibility (the amended
C9 theorem proves the empty request really has no feasible point), the
empty-request status is the very same Infeasible string that a
constraint-infeasible request receives; no status distinguishes the two
cases. -/
theorem empty_list_status_cex :
    (solve_optimal_mix [] noLimits
      (pulpConst PulpStatus.infeasible [])).status = "Infeasible" ∧
    (solve_optimal_mix [wasteA, wasteB] highPciLimits
      (pulpConst PulpStatus.infeasible [0, 0])).status = "Infeasible" ∧
    (solve_optimal_mix [] noLimits
      (pulpConst PulpStatus.infeasible [])).status =
      (solve_optimal_mix [wasteA, wasteB] highPciLimits
        (pulpConst PulpStatus.infeasible [0, 0])).status :=
  ⟨rfl, rfl, rfl⟩

/-- C9 amended: the empty material list makes the protocol mass balance
0 = 0.5 unsatisfiable, so the LP is infeasible for every assignment; the
call still returns a result (no exception), whose status is the ordinary
Infeasible — identical to the status of a request infeasible because of
its constraints, with no distinct no-materials status. -/
theorem empty_list_result_amended :
    (∀ x : List ℚ, ¬ protocolFeasible [] noLimits x) ∧
    (∀ (cons : PConstraints)
      (solver : List LinCon → List (ℚ × ℚ) → List ℚ → PulpResult),
      (solver (buildProtocolCons [] cons) (protocolBounds [])
        (([] : List WasteInput).map (fun w => w.pci))).status =
        PulpStatus.infeasible →
      (solve_optimal_mix [] cons solver).status = "Infeasible") ∧
    (solve_optimal_mix [] noLimits
      (pulpConst PulpStatus.infeasible [])).status =
      (solve_optimal_mix [wasteA, wasteB] highPciLimits
        (pulpConst PulpStatus.infeasible [0, 0])).status := by
  refine ⟨?_, ?_, rfl⟩
  · intro x h
    have h1 := h.2 ⟨0, ([] : List WasteInput).map (fun _ => (1 : ℚ)),
      Sense.eq, 1/2⟩ (by simp [buildProtocolCons, noLimits])
    unfold LinCon.sat dot at h1
    norm_num at h1
  · intro cons solver h
    have h' : (solver (buildProtocolCons [] cons) (protocolBounds [])
        []).status = PulpStatus.infeasible := h
    simp [solve_optimal_mix, h', LpStatus]

/-- Witness for the amended C9 at the empty request and a constant
infeasible-reporting solver. -/
theorem empty_list_result_amended_witness :
    ¬ protocolFeasible [] noLimits [] ∧
    (solve_optimal_mix [] noLimits
      (pulpConst PulpStatus.infeasible [])).status = "Infeasible" :=
  ⟨empty_list_result_amended.1 [],
   empty_list_result_amended.2.1 noLimits
     (pulpConst PulpStatus.infeasible []) rfl⟩

/-- C10: the free-allocation result is independent of the humidity and
density fields: two stream lists agreeing on every other field (name,
calorific value, chloride, sulfur, cost, available mass) produce the same
LP and the identical result under any solver. -/
theorem humidity_density_irrelevant (ws₁ ws₂ : List WasteStream)
    (params : KilnOperationalParameters)
    (solver : LinearProgram → ScipyResult)
    (h : ws₁.map coreFields = ws₂.map coreFields) :
    buildFreeLP ws₁ params = buildFreeLP ws₂ params ∧
    calculate_optimal_mix ws₁ params solver =
      calculate_optimal_mix ws₂ params solver := by
  have hfield : ∀ (f : WasteStream → ℚ),
      (∀ a b : WasteStream, coreFields a = coreFields b → f a = f b) →
      ws₁.map f = ws₂.map f := fun f hf =>
    map_congr_of_map_eq coreFields f hf ws₁ ws₂ h
  have hcost : ∀ a b : WasteStream, coreFields a = coreFields b →
      a.cost = b.cost := by
    intro a b hab
    simp only [coreFields, Prod.mk.injEq] at hab
    exact hab.2.2.2.2.1
  have hpci : ∀ a b : WasteStream, coreFields a = coreFields b →
      a.pci_value = b.pci_value := by
    intro a b hab
    simp only [coreFields, Prod.mk.injEq] at hab
    exact hab.2.1
  have hchl : ∀ a b : WasteStream, coreFields a = coreFields b →
      a.chloride_content = b.chloride_content := by
    intro a b hab
    simp only [coreFields, Prod.mk.injEq] at hab
    exact hab.2.2.1
  have hsul : ∀ a b : WasteStream, coreFields a = coreFields b →
      a.sulfur_content = b.sulfur_content := by
    intro a b hab
    simp only [coreFields, Prod.mk.injEq] at hab
    exact hab.2.2.2.1
  have ham : ∀ a b : WasteStream, coreFields a = coreFields b →
      a.available_mass = b.available_mass := by
    intro a b hab
    simp only [coreFields, Prod.mk.injEq] at hab
    exact hab.2.2.2.2.2
  have hname : ∀ a b : WasteStream, coreFields a = coreFields b →
      a.name = b.name := by
    intro a b hab
    simp only [coreFields, Prod.mk.injEq] at hab
    exact hab.1
  have hlp : buildFreeLP ws₁ params = buildFreeLP ws₂ params := by
    unfold buildFreeLP
    rw [hfield (fun w => w.cost - 100000) (fun a b hab => by
        show a.cost - 100000 = b.cost - 100000
        rw [hcost a b hab]),
      hfield (fun _ => (1 : ℚ)) (fun _ _ _ => rfl),
      hfield (fun w => w.sulfur_content - params.max_sulfur) (fun a b hab => by
        show a.sulfur_content - _ = b.sulfur_content - _
        rw [hsul a b hab]),
      hfield (fun w => w.chloride_content - params.max_chloride) (fun a b hab => by
        show a.chloride_content - _ = b.chloride_content - _
        rw [hchl a b hab]),
      hfield (fun w => -(w.pci_value - 95/100 * params.target_pci)) (fun a b hab => by
        show -(a.pci_value - _) = -(b.pci_value - _)
        rw [hpci a b hab]),
      hfield (fun w => w.pci_value - 105/100 * params.target_pci) (fun a b hab => by
        show a.pci_value - _ = b.pci_value - _
        rw [hpci a b hab]),
      map_congr_of_map_eq coreFields (fun w => ((0 : ℚ), w.available_mass))
        (fun a b hab => by
          show ((0 : ℚ), a.available_mass) = ((0 : ℚ), b.available_mass)
          rw [ham a b hab]) ws₁ ws₂ h]
  refine ⟨hlp, ?_⟩
  have hmix : ∀ X : List ℚ, freeMix ws₁ X = freeMix ws₂ X := by
    intro X
    unfold freeMix
    exact filtered_map_congr coreFields
      (fun p => (p.1.name, pyRound 2 p.2))
      (fun w₁ w₂ v hw => by
        show (w₁.name, pyRound 2 v) = (w₂.name, pyRound 2 v)
        rw [hname w₁ w₂ hw]) ws₁ ws₂ X h
  have hm : ∀ X : List ℚ, freeTotalMass ws₁ X = freeTotalMass ws₂ X := by
    intro X
    unfold freeTotalMass
    exact congrArg List.sum (filtered_map_congr coreFields (fun p => p.2)
      (fun w₁ w₂ v _ => rfl) ws₁ ws₂ X h)
  have hh : ∀ X : List ℚ, freeTotalHeat ws₁ X = freeTotalHeat ws₂ X := by
    intro X
    unfold freeTotalHeat
    exact congrArg List.sum (filtered_map_congr coreFields
      (fun p => p.2 * p.1.pci_value)
      (fun w₁ w₂ v hw => by
        show v * w₁.pci_value = v * w₂.pci_value
        rw [hpci w₁ w₂ hw]) ws₁ ws₂ X h)
  have hs : ∀ X : List ℚ, freeTotalSulfur ws₁ X = freeTotalSulfur ws₂ X := by
    intro X
    unfold freeTotalSulfur
    exact congrArg List.sum (filtered_map_congr coreFields
      (fun p => p.2 * p.1.sulfur_content)
      (fun w₁ w₂ v hw => by
        show v * w₁.sulfur_content = v * w₂.sulfur_content
        rw [hsul w₁ w₂ hw]) ws₁ ws₂ X h)
  have hcl : ∀ X : List ℚ, freeTotalChloride ws₁ X = freeTotalChloride ws₂ X := by
    intro X
    unfold freeTotalChloride
    exact congrArg List.sum (filtered_map_congr coreFields
      (fun p => p.2 * p.1.chloride_content)
      (fun w₁ w₂ v hw => by
        show v * w₁.chloride_content = v * w₂.chloride_content
        rw [hchl w₁ w₂ hw]) ws₁ ws₂ X h)
  have hco : ∀ X : List ℚ, freeTotalCost ws₁ X = freeTotalCost ws₂ X := by
    intro X
    unfold freeTotalCost
    exact congrArg List.sum (filtered_map_congr coreFields
      (fun p => p.2 * p.1.cost)
      (fun w₁ w₂ v hw => by
        show v * w₁.cost = v * w₂.cost
        rw [hcost w₁ w₂ hw]) ws₁ ws₂ X h)
  simp only [calculate_optimal_mix, hlp, hmix, hm, hh, hs, hcl, hco]

/-- Witness for C10: the Tires stream against the same stream with other
humidity and density, under a concrete successful solver. -/
theorem humidity_density_irrelevant_witness :
    calculate_optimal_mix [demoTires] demoParams
      (scipyConst ScipyStatus.optimal [2] 0 "ok") =
    calculate_optimal_mix [demoTiresWet] demoParams
      (scipyConst ScipyStatus.optimal [2] 0 "ok") :=
  (humidity_density_irrelevant [demoTires] [demoTiresWet] demoParams
    (scipyConst ScipyStatus.optimal [2] 0 "ok") rfl).2

end OptiBlend
